import Mathlib

/-!
Shallow embedding of the note-event state machine and publish protocol of the
virtual-piano client (`src/src/App.tsx`, with the historical iterations in
`src/unnamed/part_000` and `src/unnamed/part_001`).

The React component state is modelled as an explicit record; every handler
becomes a pure function from state (plus the clock reading `now`, the value
`Date.now()` would return) to the new state together with the list of wire
messages handed to `client.publish` during the call.
-/

/-- The wire message `JSON.stringify`-ed onto the `piano` topic.  Each field is
optional, mirroring which keys the serialized JSON object actually carries:
`startNote` publishes `{note, action:'start', volume}`, `stopNote` publishes
`{note, action:'stop', duration}` and `handleVolumeChange` publishes
`{volume}` (App.tsx lines 72-74, 86-88, 102-105). -/
structure WireMsg where
  note : Option String
  action : Option String
  duration : Option Int
  volume : Option Int
deriving Repr, DecidableEq

/-- The `action` string of a start message (App.tsx line 72). -/
def actionStart : String := "start"

/-- The `action` string of a stop message (App.tsx line 87). -/
def actionStop : String := "stop"

/-- One entry of the `pianoKeys` catalog (App.tsx lines 4-8). -/
structure PianoKey where
  note : String
  key : String
  isBlack : Bool
deriving Repr, DecidableEq

/-- The static key catalog (App.tsx lines 10-23). -/
def pianoKeys : List PianoKey :=
  [⟨"do", "a", false⟩, ⟨"do#", "w", true⟩, ⟨"re", "s", false⟩,
   ⟨"re#", "e", true⟩, ⟨"mi", "d", false⟩, ⟨"fa", "f", false⟩,
   ⟨"fa#", "t", true⟩, ⟨"so", "g", false⟩, ⟨"so#", "y", true⟩,
   ⟨"la", "h", false⟩, ⟨"la#", "u", true⟩, ⟨"si", "j", false⟩]

/-- `pianoKeys.find((k) => k.key === x)` (App.tsx lines 110, 115). -/
def findKey (x : String) : Option PianoKey :=
  pianoKeys.find? (fun k => k.key = x)

/-- ASCII lowercase of one character, as JS `toLowerCase` acts on the key
names that occur here. -/
def lowerChar (c : Char) : Char :=
  if 65 ≤ c.toNat ∧ c.toNat ≤ 90 then Char.ofNat (c.toNat + 32) else c

/-- `e.key.toLowerCase()` (App.tsx lines 110, 115). -/
def toLowerCase (x : String) : String := String.mk (x.data.map lowerChar)

/-- The `activeKeys : Record<string, ActiveKey>` object; each `ActiveKey` holds
only `startTime` (App.tsx lines 32-34, 38), so the record is a key-unique
association list from note id to start timestamp. -/
abbrev ActiveKeys := List (String × Int)

/-- JS object property read `m[k]`: first (hence only) binding wins. -/
def lookupKey : ActiveKeys → String → Option Int
  | [], _ => none
  | (k2, v) :: rest, k => if k2 = k then some v else lookupKey rest k

/-- JS object property write `m[k] = v` (the spread-update in App.tsx lines
67-70): in-place update of an existing key, else append. -/
def setKey : ActiveKeys → String → Int → ActiveKeys
  | [], k, v => [(k, v)]
  | (k2, v2) :: rest, k, v =>
      if k2 = k then (k, v) :: rest else (k2, v2) :: setKey rest k v

/-- JS `delete m[k]` (App.tsx lines 91-95). -/
def delKey : ActiveKeys → String → ActiveKeys
  | [], _ => []
  | (k2, v2) :: rest, k =>
      if k2 = k then delKey rest k else (k2, v2) :: delKey rest k

/-- Number of bindings a note has in the record (the record invariant keeps it
at most one; we count to state that invariant). -/
def countKey (m : ActiveKeys) (k : String) : Nat :=
  (m.filter (fun p => p.1 == k)).length

/-- The component state of `App` (App.tsx lines 37-39): whether `client` is
non-null, whether the underlying MQTT transport is currently connected (the
client object exists but delivery can fail; the handlers never read this
flag, exactly as the source never consults connection state), the
`activeKeys` record and the `volume` state. -/
structure AppState where
  hasClient : Bool
  connected : Bool
  activeKeys : ActiveKeys
  volume : Int
deriving Repr, DecidableEq

/-- A publish attempt is delivered only while the transport is connected; the
handlers fire and forget, so this flag never influences state updates. -/
def publishSucceeds (s : AppState) : Bool := s.connected

/-- `startNote` (App.tsx lines 59-76): guard `if (!client) return;`, then
`activeKeys[note] = {startTime: Date.now()}` and publish
`{note, action:'start', volume}`.  Note: no check that the note is already
active — an existing entry is overwritten. -/
def startNote (s : AppState) (note : String) (now : Int) :
    AppState × List WireMsg :=
  if s.hasClient then
    ({ s with activeKeys := setKey s.activeKeys note now },
     [⟨some note, some actionStart, none, some s.volume⟩])
  else (s, [])

/-- `stopNote` (App.tsx lines 78-96): guard
`if (!client || !activeKeys[note]) return;`, then
`holdDuration = Date.now() - activeKeys[note].startTime`, publish
`{note, action:'stop', duration}` and delete the entry. -/
def stopNote (s : AppState) (note : String) (now : Int) :
    AppState × List WireMsg :=
  if s.hasClient then
    match lookupKey s.activeKeys note with
    | some st =>
        ({ s with activeKeys := delKey s.activeKeys note },
         [⟨some note, some actionStop, some (now - st), none⟩])
    | none => (s, [])
  else (s, [])

/-- `handleVolumeChange` (App.tsx lines 98-107): store the parsed raw value
unchanged, and if a client exists publish `{volume}` with that same raw
value.  There is no clamping in the handler. -/
def handleVolumeChange (s : AppState) (v : Int) : AppState × List WireMsg :=
  if s.hasClient then
    ({ s with volume := v }, [⟨none, none, none, some v⟩])
  else ({ s with volume := v }, [])

/-- `handleKeyDown` (App.tsx lines 109-112): resolve `e.key.toLowerCase()`
through the catalog; start only if the note is not already active. -/
def handleKeyDown (s : AppState) (key : String) (now : Int) :
    AppState × List WireMsg :=
  match findKey (toLowerCase key) with
  | some ko =>
      if (lookupKey s.activeKeys ko.note).isSome then (s, [])
      else startNote s ko.note now
  | none => (s, [])

/-- `handleKeyUp` (App.tsx lines 114-117): resolve the key and stop. -/
def handleKeyUp (s : AppState) (key : String) (now : Int) :
    AppState × List WireMsg :=
  match findKey (toLowerCase key) with
  | some ko => stopNote s ko.note now
  | none => (s, [])

/-- The `onMouseLeave` handler of a key element (App.tsx line 146):
`activeKeys[key.note] && stopNote(key.note)`. -/
def onMouseLeave (s : AppState) (note : String) (now : Int) :
    AppState × List WireMsg :=
  if (lookupKey s.activeKeys note).isSome then stopNote s note now
  else (s, [])

/-- JS truthiness of a `number | null` value (`0` and `null` are falsy), used
by the guard `if (key && client && keyPressTime)` in part_001. -/
def truthyTime : Option Int → Bool
  | none => false
  | some t => t != 0

/-- Component state of the first iteration in `src/unnamed/part_001`
(lines 37-40): `activeKey`, `keyPressTime` (a full timestamp), plus the
client flag.  The debug log and `holdDuration` display state are omitted as
pure observability. -/
structure IterState where
  hasClient : Bool
  activeKey : Option String
  keyPressTime : Option Int
deriving Repr, DecidableEq

/-- `handleKeyUp` of the first iteration in `src/unnamed/part_001`
(lines 85-111): when a mapped key is released while a press is recorded, it
sets `const duration = 500` — a hardcoded constant, not a timestamp
difference — and publishes `{note, duration}`. -/
def iter_handleKeyUp (s : IterState) (key : String) (_now : Int) :
    IterState × List WireMsg :=
  match findKey (toLowerCase key) with
  | some ko =>
      if s.hasClient && truthyTime s.keyPressTime then
        ({ s with activeKey := none, keyPressTime := none },
         [⟨some ko.note, none, some 500, none⟩])
      else (s, [])
  | none => (s, [])

/-!
Trace semantics for the ordering claim: an input session is a list of raw
input events (the exact set of handlers App.tsx installs), executed in order
from the freshly mounted state, concatenating every published message into
one log.
-/

/-- One raw input event, carrying the clock reading at which its handler
runs.  These are exactly the entry points of App.tsx: the window `keydown`
and `keyup` listeners, a key element's `onMouseDown`, `onMouseUp` and
`onMouseLeave`, and the slider's `onChange`. -/
inductive InputOp where
  | keyDown (key : String) (now : Int)
  | keyUp (key : String) (now : Int)
  | mouseDown (note : String) (now : Int)
  | mouseUp (note : String) (now : Int)
  | mouseLeave (note : String) (now : Int)
  | volChange (v : Int)
deriving Repr, DecidableEq

/-- Dispatch one raw input event to its handler (App.tsx lines 109-117 for
the keyboard listeners, lines 144-146 for the pointer handlers, line 164 for
the slider). -/
def stepInput (s : AppState) : InputOp → AppState × List WireMsg
  | InputOp.keyDown key now => handleKeyDown s key now
  | InputOp.keyUp key now => handleKeyUp s key now
  | InputOp.mouseDown note now => startNote s note now
  | InputOp.mouseUp note now => stopNote s note now
  | InputOp.mouseLeave note now => onMouseLeave s note now
  | InputOp.volChange v => handleVolumeChange s v

/-- Run a whole input session, collecting the published messages in order. -/
def runInputs (s : AppState) : List InputOp → AppState × List WireMsg
  | [] => (s, [])
  | op :: rest =>
      ((runInputs (stepInput s op).1 rest).1,
       (stepInput s op).2 ++ (runInputs (stepInput s op).1 rest).2)

/-- The note a message starts, when it is a start message. -/
def msgStartsNote (m : WireMsg) : Option String :=
  match m.note, m.action with
  | some n, some a => if a = actionStart then some n else none
  | _, _ => none

/-- The note a message stops, when it is a stop message. -/
def msgStopsNote (m : WireMsg) : Option String :=
  match m.note, m.action with
  | some n, some a => if a = actionStop then some n else none
  | _, _ => none

/-- Accumulate the note of a start message into the set of notes whose start
has already been published. -/
def pushSeen (seen : List String) (m : WireMsg) : List String :=
  match msgStartsNote m with
  | some n => n :: seen
  | none => seen

/-- A message is admissible over `seen`: a stop message only for a note whose
start was already published; anything else unconditionally. -/
def stopOk (seen : List String) (m : WireMsg) : Bool :=
  match msgStopsNote m with
  | some n => seen.contains n
  | none => true

/-- Every stop message in the log is preceded (strictly earlier in the log,
given the starts in `seen` published before the log began) by a start
message for the same note. -/
def stopsOkFrom (seen : List String) : List WireMsg → Bool
  | [] => true
  | m :: rest => stopOk seen m && stopsOkFrom (pushSeen seen m) rest

/-- The starts published before the log began, extended by the log. -/
def seenAfter (seen : List String) : List WireMsg → List String
  | [] => seen
  | m :: rest => seenAfter (pushSeen seen m) rest

/-- The invariant tying state to log: every currently active note already has
a published start message. -/
def ActiveSeen (s : AppState) (seen : List String) : Prop :=
  ∀ n, (lookupKey s.activeKeys n).isSome = true → n ∈ seen

/-!  Basic facts about the `activeKeys` record operations.  -/

theorem lookupKey_setKey_self (m : ActiveKeys) (k : String) (v : Int) :
    lookupKey (setKey m k v) k = some v := by
  induction m with
  | nil => simp [setKey, lookupKey]
  | cons p rest ih =>
      obtain ⟨k2, v2⟩ := p
      by_cases h : k2 = k
      · simp [setKey, h, lookupKey]
      · simp [setKey, h, lookupKey, ih]

theorem lookupKey_setKey_ne (m : ActiveKeys) (k k2 : String) (v : Int)
    (h : k2 ≠ k) : lookupKey (setKey m k v) k2 = lookupKey m k2 := by
  have h5 : ¬ k = k2 := fun hh => h hh.symm
  induction m with
  | nil => simp [setKey, lookupKey, h5]
  | cons p rest ih =>
      obtain ⟨k3, v3⟩ := p
      by_cases h3 : k3 = k
      · subst h3
        simp [setKey, lookupKey, h5]
      · simp only [setKey, h3, if_false, lookupKey]
        by_cases h4 : k3 = k2 <;> simp [h4, ih]

theorem lookupKey_delKey_self (m : ActiveKeys) (k : String) :
    lookupKey (delKey m k) k = none := by
  induction m with
  | nil => simp [delKey, lookupKey]
  | cons p rest ih =>
      obtain ⟨k2, v2⟩ := p
      by_cases h : k2 = k
      · simp [delKey, h, ih]
      · simp [delKey, h, lookupKey, ih]

theorem lookupKey_delKey_ne (m : ActiveKeys) (k k2 : String) (h : k2 ≠ k) :
    lookupKey (delKey m k) k2 = lookupKey m k2 := by
  have h5 : ¬ k = k2 := fun hh => h hh.symm
  induction m with
  | nil => simp [delKey]
  | cons p rest ih =>
      obtain ⟨k3, v3⟩ := p
      by_cases h3 : k3 = k
      · subst h3
        simp [delKey, lookupKey, h5, ih]
      · simp only [delKey, h3, if_false, lookupKey]
        by_cases h4 : k3 = k2 <;> simp [h4, ih]

theorem lookupKey_setKey_isSome (m : ActiveKeys) (k k2 : String) (v : Int) :
    (lookupKey (setKey m k v) k2).isSome = true ↔
      k2 = k ∨ (lookupKey m k2).isSome = true := by
  by_cases h : k2 = k
  · subst h
    simp [lookupKey_setKey_self]
  · simp [lookupKey_setKey_ne m k k2 v h, h]

theorem lookupKey_delKey_isSome (m : ActiveKeys) (k k2 : String)
    (h : (lookupKey (delKey m k) k2).isSome = true) :
    (lookupKey m k2).isSome = true := by
  by_cases h2 : k2 = k
  · subst h2
    simp [lookupKey_delKey_self] at h
  · rwa [lookupKey_delKey_ne m k k2 h2] at h

theorem countKey_nil (k : String) : countKey [] k = 0 := rfl

theorem countKey_cons (k2 : String) (v2 : Int) (rest : ActiveKeys)
    (k : String) :
    countKey ((k2, v2) :: rest) k =
      (if k2 = k then 1 else 0) + countKey rest k := by
  by_cases h : k2 = k <;>
    simp [countKey, List.filter_cons, h, Nat.add_comm]

theorem countKey_setKey (m : ActiveKeys) (k : String) (v : Int) :
    countKey (setKey m k v) k = max (countKey m k) 1 := by
  induction m with
  | nil => simp [setKey, countKey_nil, countKey_cons]
  | cons p rest ih =>
      obtain ⟨k2, v2⟩ := p
      by_cases h : k2 = k
      · simp only [setKey, h, if_true, countKey_cons, if_pos rfl]
        omega
      · simp [setKey, h, countKey_cons, ih]

theorem lookupKey_none_iff_countKey_zero (m : ActiveKeys) (k : String) :
    lookupKey m k = none ↔ countKey m k = 0 := by
  induction m with
  | nil => simp [lookupKey, countKey_nil]
  | cons p rest ih =>
      obtain ⟨k2, v2⟩ := p
      by_cases h : k2 = k <;> simp [lookupKey, h, countKey_cons, ih]

theorem lookupKey_isSome_of_countKey_one (m : ActiveKeys) (k : String)
    (h : countKey m k = 1) : (lookupKey m k).isSome = true := by
  rcases h2 : lookupKey m k with _ | v
  · rw [lookupKey_none_iff_countKey_zero] at h2
    omega
  · rfl

/-- C1: counterexample.  In the state where note `do` has an ActivePress that
started at time 0, a second direct `startNote` call (as the pointer
`onMouseDown` handler issues it) at time 5 overwrites the recorded start
timestamp with 5 — the claim that a repeated press start leaves the start
timestamp unchanged is false. -/
theorem c1_second_press_changes_timestamp :
    lookupKey (AppState.mk true true [("do", 0)] 50).activeKeys "do" = some 0 ∧
    lookupKey ((startNote (AppState.mk true true [("do", 0)] 50) "do" 5).1.activeKeys)
      "do" = some 5 ∧
    some (5 : Int) ≠ some (0 : Int) := by decide

/-- C1 (amended): a second `startNote` for a note that already has exactly one
ActivePress leaves exactly one ActivePress for that note but resets its start
timestamp to the time of the second call; only the keyboard path
(`handleKeyDown`) guards against re-press, and there a second key-down for an
already-active note is a complete no-op. -/
theorem c1_second_press_single_entry (s : AppState) (note key : String)
    (ko : PianoKey) (t2 : Int) (hc : s.hasClient = true)
    (hone : countKey s.activeKeys note = 1)
    (hf : findKey (toLowerCase key) = some ko) (hn : ko.note = note) :
    countKey ((startNote s note t2).1.activeKeys) note = 1 ∧
    lookupKey ((startNote s note t2).1.activeKeys) note = some t2 ∧
    handleKeyDown s key t2 = (s, []) := by
  refine ⟨?_, ?_, ?_⟩
  · simp [startNote, hc, countKey_setKey, hone]
  · simp [startNote, hc, lookupKey_setKey_self]
  · have hsome : (lookupKey s.activeKeys ko.note).isSome = true := by
      rw [hn]
      exact lookupKey_isSome_of_countKey_one _ _ hone
    simp [handleKeyDown, hf, hsome]

/-- C1 witness: the amended statement at the concrete state holding `do`
since time 0, re-pressed at time 5 via pointer and via the `A` key. -/
theorem c1_second_press_single_entry_witness :
    countKey ((startNote (AppState.mk true true [("do", 0)] 50) "do" 5).1.activeKeys)
      "do" = 1 ∧
    lookupKey ((startNote (AppState.mk true true [("do", 0)] 50) "do" 5).1.activeKeys)
      "do" = some 5 ∧
    handleKeyDown (AppState.mk true true [("do", 0)] 50) "A" 5 =
      (AppState.mk true true [("do", 0)] 50, []) :=
  c1_second_press_single_entry (AppState.mk true true [("do", 0)] 50) "do" "A"
    ⟨"do", "a", false⟩ 5 rfl (by decide) (by decide) rfl

/-- C2: the `handleKeyUp` of the first iteration in `src/unnamed/part_001`
publishes the hardcoded constant 500 as the duration.  With a press recorded
at time 100 and released at time 1100, the emitted duration is 500, not the
clock difference 1000 — the release handlers of the repository do not all
compute `durationMs` as release time minus start time. -/
theorem c2_part001_hardcoded_duration :
    (iter_handleKeyUp (IterState.mk true (some "do") (some 100)) "a" 1100).2 =
      [⟨some "do", none, some 500, none⟩] ∧
    (500 : Int) ≠ 1100 - 100 := by decide

/-- C3: releasing an active note while the transport is disconnected (so the
publish attempt cannot be delivered) still emits the stop attempt with the
computed duration and still removes the ActivePress: `stopNote` never
consults the connection state before clearing the record. -/
theorem c3_failed_publish_still_clears (s : AppState) (note : String)
    (now st : Int) (hc : s.hasClient = true) (hconn : s.connected = false)
    (ha : lookupKey s.activeKeys note = some st) :
    publishSucceeds s = false ∧
    (stopNote s note now).2 =
      [⟨some note, some actionStop, some (now - st), none⟩] ∧
    lookupKey ((stopNote s note now).1.activeKeys) note = none := by
  refine ⟨?_, ?_, ?_⟩
  · simp [publishSucceeds, hconn]
  · simp [stopNote, hc, ha]
  · simp [stopNote, hc, ha, lookupKey_delKey_self]

/-- C3 witness: note `do` held since time 0 on a disconnected client,
released at time 7. -/
theorem c3_failed_publish_still_clears_witness :
    publishSucceeds (AppState.mk true false [("do", 0)] 50) = false ∧
    (stopNote (AppState.mk true false [("do", 0)] 50) "do" 7).2 =
      [⟨some "do", some actionStop, some 7, none⟩] ∧
    lookupKey ((stopNote (AppState.mk true false [("do", 0)] 50) "do" 7).1.activeKeys)
      "do" = none := by
  have h := c3_failed_publish_still_clears (AppState.mk true false [("do", 0)] 50)
    "do" 7 0 rfl rfl (by decide)
  simpa using h

/-- C4: `stopNote` for a note with no ActivePress is a complete no-op — the
guard `if (!client || !activeKeys[note]) return;` fires, so no message is
published and the state (active presses and volume included) is returned
unchanged. -/
theorem c4_release_without_press_noop (s : AppState) (note : String)
    (now : Int) (ha : lookupKey s.activeKeys note = none) :
    stopNote s note now = (s, []) := by
  cases hc : s.hasClient <;> simp [stopNote, hc, ha]

/-- C4 witness: releasing `do` in a state with no active presses. -/
theorem c4_release_without_press_noop_witness :
    stopNote (AppState.mk true true [] 50) "do" 3 =
      (AppState.mk true true [] 50, []) :=
  c4_release_without_press_noop (AppState.mk true true [] 50) "do" 3 rfl

/-- C5: counterexample.  `handleVolumeChange` applied to the raw value 150
stores 150 (not the clamp 100) and publishes `{volume: 150}`: the handler
performs no clamping — the [0,100] range is enforced only by the slider
element's `min`/`max` attributes, outside the handler. -/
theorem c5_volume_not_clamped :
    (handleVolumeChange (AppState.mk true true [] 50) 150).1.volume = 150 ∧
    (150 : Int) ≠ 100 ∧
    (handleVolumeChange (AppState.mk true true [] 50) 150).2 =
      [⟨none, none, none, some 150⟩] := by decide

/-- C5 (amended): for every raw value `v`, `handleVolumeChange` stores `v`
unchanged and publishes a volume-only message carrying that same raw value;
no clamping happens in the handler. -/
theorem c5_volume_raw_stored (s : AppState) (v : Int)
    (hc : s.hasClient = true) :
    (handleVolumeChange s v).1.volume = v ∧
    (handleVolumeChange s v).2 = [⟨none, none, none, some v⟩] := by
  simp [handleVolumeChange, hc]

/-- C5 witness: the amended statement at raw value 150. -/
theorem c5_volume_raw_stored_witness :
    (handleVolumeChange (AppState.mk true true [] 50) 150).1.volume = 150 ∧
    (handleVolumeChange (AppState.mk true true [] 50) 150).2 =
      [⟨none, none, none, some 150⟩] :=
  c5_volume_raw_stored (AppState.mk true true [] 50) 150 rfl

/-- C6: a `startNote` at time `t0` followed immediately (at any `t1 ≥ t0`,
the clock being non-decreasing) by `stopNote` for the same note publishes a
stop event whose duration is `t1 - t0`, which is ≥ 0. -/
theorem c6_press_release_duration_nonneg (s : AppState) (note : String)
    (t0 t1 : Int) (hc : s.hasClient = true) (hle : t0 ≤ t1) :
    (stopNote (startNote s note t0).1 note t1).2 =
      [⟨some note, some actionStop, some (t1 - t0), none⟩] ∧
    0 ≤ t1 - t0 := by
  constructor
  · have h1 : (startNote s note t0).1.hasClient = true := by
      simp [startNote, hc]
    have h2 : lookupKey (startNote s note t0).1.activeKeys note = some t0 := by
      simp [startNote, hc, lookupKey_setKey_self]
    simp [stopNote, h1, h2]
  · omega

/-- C6 witness: press `do` at time 2, release at time 9. -/
theorem c6_press_release_duration_nonneg_witness :
    (stopNote (startNote (AppState.mk true true [] 50) "do" 2).1 "do" 9).2 =
      [⟨some "do", some actionStop, some 7, none⟩] ∧
    0 ≤ (9 : Int) - 2 := by
  have h := c6_press_release_duration_nonneg (AppState.mk true true [] 50)
    "do" 2 9 rfl (by omega)
  simpa using h

/-- C7: counterexample.  With two notes active (`do` and `mi`, both since
time 0), the pointer-leave handler — the code's only forced-release path —
stops only the note whose key element the pointer left: one stop event is
emitted and `do` remains active, so the set of ActivePress entries is not
empty afterwards. -/
theorem c7_mouse_leave_not_clear_all :
    (onMouseLeave (AppState.mk true true [("do", 0), ("mi", 0)] 50) "mi" 300).2 =
      [⟨some "mi", some actionStop, some 300, none⟩] ∧
    (onMouseLeave (AppState.mk true true [("do", 0), ("mi", 0)] 50) "mi" 300).1.activeKeys =
      [("do", 0)] ∧
    [(("do" : String), (0 : Int))] ≠ [] := by decide

/-- C7 (amended): the `onMouseLeave` handler of a key is a per-note forced
release, not a clear-all: if the note is active it emits exactly one
synthetic stop event for that note with duration `now` minus that note's
start time, removes exactly that note's ActivePress, and leaves every other
note's entry unchanged. -/
theorem c7_mouse_leave_single_note (s : AppState) (note n : String)
    (now st : Int) (hc : s.hasClient = true)
    (ha : lookupKey s.activeKeys note = some st) (hn : n ≠ note) :
    (onMouseLeave s note now).2 =
      [⟨some note, some actionStop, some (now - st), none⟩] ∧
    lookupKey (onMouseLeave s note now).1.activeKeys note = none ∧
    lookupKey (onMouseLeave s note now).1.activeKeys n =
      lookupKey s.activeKeys n := by
  have hsome : (lookupKey s.activeKeys note).isSome = true := by
    rw [ha]; rfl
  refine ⟨?_, ?_, ?_⟩
  · simp [onMouseLeave, hsome, stopNote, hc, ha]
  · simp [onMouseLeave, hsome, stopNote, hc, ha, lookupKey_delKey_self]
  · simp [onMouseLeave, hsome, stopNote, hc, ha,
      lookupKey_delKey_ne _ _ _ hn]

/-- C7 witness: the amended statement with `do` and `mi` active, the pointer
leaving `mi` at time 300. -/
theorem c7_mouse_leave_single_note_witness :
    (onMouseLeave (AppState.mk true true [("do", 0), ("mi", 0)] 50) "mi" 300).2 =
      [⟨some "mi", some actionStop, some 300, none⟩] ∧
    lookupKey (onMouseLeave (AppState.mk true true [("do", 0), ("mi", 0)] 50)
      "mi" 300).1.activeKeys "mi" = none ∧
    lookupKey (onMouseLeave (AppState.mk true true [("do", 0), ("mi", 0)] 50)
      "mi" 300).1.activeKeys "do" =
      lookupKey (AppState.mk true true [("do", 0), ("mi", 0)] 50).activeKeys "do" := by
  have h := c7_mouse_leave_single_note
    (AppState.mk true true [("do", 0), ("mi", 0)] 50) "mi" "do" 300 0 rfl
    (by decide) (by decide)
  simpa using h

/-- C8: counterexample.  The stop message published by `stopNote` for note
`do` (held since time 0, volume 50, released at time 500) carries no volume
field at all — its `volume` key is absent — refuting the claim that every
emitted note event carries a snapshot of the current volume. -/
theorem c8_stop_event_lacks_volume :
    (stopNote (AppState.mk true true [("do", 0)] 50) "do" 500).2 =
      [⟨some "do", some actionStop, some 500, none⟩] ∧
    (WireMsg.mk (some "do") (some actionStop) (some 500) none).volume = none ∧
    (none : Option Int) ≠ some 50 := by decide

/-- C8 (amended): the two note-event shapes actually emitted are internally
consistent but asymmetric: `startNote` publishes `{note, action:'start',
volume}` with the volume snapshot, while `stopNote` publishes `{note,
action:'stop', duration}` with the computed duration and no volume field. -/
theorem c8_schema (s : AppState) (note : String) (now st : Int)
    (hc : s.hasClient = true) (ha : lookupKey s.activeKeys note = some st) :
    (startNote s note now).2 =
      [⟨some note, some actionStart, none, some s.volume⟩] ∧
    (stopNote s note now).2 =
      [⟨some note, some actionStop, some (now - st), none⟩] := by
  constructor
  · simp [startNote, hc]
  · simp [stopNote, hc, ha]

/-- C8 witness: the emitted message shapes for note `do` held since time 0
at volume 50, with the clock at 500. -/
theorem c8_schema_witness :
    (startNote (AppState.mk true true [("do", 0)] 50) "do" 500).2 =
      [⟨some "do", some actionStart, none, some 50⟩] ∧
    (stopNote (AppState.mk true true [("do", 0)] 50) "do" 500).2 =
      [⟨some "do", some actionStop, some 500, none⟩] := by
  have h := c8_schema (AppState.mk true true [("do", 0)] 50) "do" 500 0 rfl
    (by decide)
  simpa using h

theorem stopsOkFrom_append (l1 l2 : List WireMsg) (seen : List String) :
    stopsOkFrom seen (l1 ++ l2) =
      (stopsOkFrom seen l1 && stopsOkFrom (seenAfter seen l1) l2) := by
  induction l1 generalizing seen with
  | nil => simp [stopsOkFrom, seenAfter]
  | cons m rest ih =>
      simp [stopsOkFrom, seenAfter, ih, Bool.and_assoc]

theorem startNote_ok (s : AppState) (note : String) (now : Int)
    (seen : List String) (h : ActiveSeen s seen) :
    stopsOkFrom seen (startNote s note now).2 = true ∧
    ActiveSeen (startNote s note now).1
      (seenAfter seen (startNote s note now).2) := by
  cases hc : s.hasClient with
  | false =>
      refine ⟨by simp [startNote, hc, stopsOkFrom], ?_⟩
      simpa [startNote, hc, seenAfter] using h
  | true =>
      constructor
      · simp [startNote, hc, stopsOkFrom, stopOk, msgStopsNote,
          actionStart, actionStop]
      · intro n hn
        simp only [startNote, hc, if_true] at hn ⊢
        simp only [seenAfter, pushSeen, msgStartsNote, actionStart,
          if_pos rfl]
        rcases (lookupKey_setKey_isSome s.activeKeys note n now).mp hn with
          he | hold
        · rw [he]
          exact List.mem_cons_self _ _
        · exact List.mem_cons_of_mem _ (h n hold)

theorem stopNote_ok (s : AppState) (note : String) (now : Int)
    (seen : List String) (h : ActiveSeen s seen) :
    stopsOkFrom seen (stopNote s note now).2 = true ∧
    ActiveSeen (stopNote s note now).1
      (seenAfter seen (stopNote s note now).2) := by
  cases hc : s.hasClient with
  | false =>
      refine ⟨by simp [stopNote, hc, stopsOkFrom], ?_⟩
      simpa [stopNote, hc, seenAfter] using h
  | true =>
      rcases ha : lookupKey s.activeKeys note with _ | st
      · refine ⟨by simp [stopNote, hc, ha, stopsOkFrom], ?_⟩
        simpa [stopNote, hc, ha, seenAfter] using h
      · have hmem : note ∈ seen := h note (by rw [ha]; rfl)
        constructor
        · simp [stopNote, hc, ha, stopsOkFrom, stopOk, msgStopsNote,
            actionStop]
          exact hmem
        · intro n hn
          simp only [stopNote, hc, ha, if_true] at hn ⊢
          simp only [seenAfter, pushSeen, msgStartsNote, actionStop,
            actionStart]
          have : ¬ ("stop" : String) = "start" := by decide
          simp only [this, if_false]
          exact h n (lookupKey_delKey_isSome _ _ _ hn)

theorem volChange_ok (s : AppState) (v : Int) (seen : List String)
    (h : ActiveSeen s seen) :
    stopsOkFrom seen (handleVolumeChange s v).2 = true ∧
    ActiveSeen (handleVolumeChange s v).1
      (seenAfter seen (handleVolumeChange s v).2) := by
  cases hc : s.hasClient with
  | false =>
      refine ⟨by simp [handleVolumeChange, hc, stopsOkFrom], ?_⟩
      intro n hn
      simp only [handleVolumeChange, hc, if_false, seenAfter] at hn ⊢
      exact h n hn
  | true =>
      refine ⟨by simp [handleVolumeChange, hc, stopsOkFrom, stopOk,
        msgStopsNote], ?_⟩
      intro n hn
      simp only [handleVolumeChange, hc, if_true, seenAfter, pushSeen,
        msgStartsNote] at hn ⊢
      exact h n hn

theorem stepInput_ok (s : AppState) (op : InputOp) (seen : List String)
    (h : ActiveSeen s seen) :
    stopsOkFrom seen (stepInput s op).2 = true ∧
    ActiveSeen (stepInput s op).1 (seenAfter seen (stepInput s op).2) := by
  cases op with
  | keyDown key now =>
      simp only [stepInput, handleKeyDown]
      rcases findKey (toLowerCase key) with _ | ko
      · exact ⟨rfl, by simpa [seenAfter] using h⟩
      · simp only []
        rcases hl : (lookupKey s.activeKeys ko.note).isSome with _ | _
        · simp only [Bool.false_eq_true, if_false]
          exact startNote_ok s ko.note now seen h
        · simp only [if_true]
          exact ⟨rfl, by simpa [seenAfter] using h⟩
  | keyUp key now =>
      simp only [stepInput, handleKeyUp]
      rcases findKey (toLowerCase key) with _ | ko
      · exact ⟨rfl, by simpa [seenAfter] using h⟩
      · exact stopNote_ok s ko.note now seen h
  | mouseDown note now => exact startNote_ok s note now seen h
  | mouseUp note now => exact stopNote_ok s note now seen h
  | mouseLeave note now =>
      simp only [stepInput, onMouseLeave]
      rcases hl : (lookupKey s.activeKeys note).isSome with _ | _
      · simp only [Bool.false_eq_true, if_false]
        exact ⟨rfl, by simpa [seenAfter] using h⟩
      · simp only [if_true]
        exact stopNote_ok s note now seen h
  | volChange v => exact volChange_ok s v seen h

theorem runInputs_stopsOk (ops : List InputOp) (s : AppState)
    (seen : List String) (h : ActiveSeen s seen) :
    stopsOkFrom seen (runInputs s ops).2 = true := by
  induction ops generalizing s seen with
  | nil => simp [runInputs, stopsOkFrom]
  | cons op rest ih =>
      have hs := stepInput_ok s op seen h
      have hrest := ih (stepInput s op).1 (seenAfter seen (stepInput s op).2)
        hs.2
      simp [runInputs, stopsOkFrom_append, hs.1, hrest]

/-- C9: in every input session run from the freshly mounted state (no active
presses; any client/connection status and any initial volume), every stop
message in the published log is preceded by a start message for the same
note: a stop is only ever published for a note whose press was observed and
created the ActivePress the stop consumes. -/
theorem c9_stop_preceded_by_start (hc conn : Bool) (v : Int)
    (ops : List InputOp) :
    stopsOkFrom [] (runInputs (AppState.mk hc conn [] v) ops).2 = true := by
  apply runInputs_stopsOk
  intro n hn
  simp [lookupKey] at hn

/-- C10: a volume change touches nothing but the stored volume: the client
flag, the connection flag and the whole `activeKeys` record (which notes are
held and their start timestamps) are identical before and after, and the
only message published is the volume-only message with the new value. -/
theorem c10_volume_change_frame (s : AppState) (v : Int)
    (hc : s.hasClient = true) :
    (handleVolumeChange s v).1.activeKeys = s.activeKeys ∧
    (handleVolumeChange s v).1.hasClient = s.hasClient ∧
    (handleVolumeChange s v).1.connected = s.connected ∧
    (handleVolumeChange s v).1.volume = v ∧
    (handleVolumeChange s v).2 = [⟨none, none, none, some v⟩] := by
  simp [handleVolumeChange, hc]

/-- C10 witness: volume set to 80 while `do` is held. -/
theorem c10_volume_change_frame_witness :
    (handleVolumeChange (AppState.mk true true [("do", 0)] 50) 80).1.activeKeys =
      (AppState.mk true true [("do", 0)] 50).activeKeys ∧
    (handleVolumeChange (AppState.mk true true [("do", 0)] 50) 80).1.hasClient =
      (AppState.mk true true [("do", 0)] 50).hasClient ∧
    (handleVolumeChange (AppState.mk true true [("do", 0)] 50) 80).1.connected =
      (AppState.mk true true [("do", 0)] 50).connected ∧
    (handleVolumeChange (AppState.mk true true [("do", 0)] 50) 80).1.volume = 80 ∧
    (handleVolumeChange (AppState.mk true true [("do", 0)] 50) 80).2 =
      [⟨none, none, none, some 80⟩] :=
  c10_volume_change_frame (AppState.mk true true [("do", 0)] 50) 80 rfl
